import Mathlib

/-!
Shallow embedding of the Thread_Pool repository
(src/Thread_Pool/JobQueue.hpp, src/Thread_Pool/ThreadPool.hpp).

Tasks (`Job_Base*`) are modelled as natural-number identifiers.  Executing a
task appends its id to a ghost `executedLog`; `delete`-ing a task appends its
id to a ghost `destroyedLog`.  These logs record the observable task
lifecycle; the pool code never reads them.

The worker loop `ThreadPool::Idle` is modelled as a small-step machine: each
critical section / long-running statement of the loop body is one atomic step
(`Idle_step`), with the worker's position in the loop recorded by a program
counter `WPC`.  Joining a thread runs that worker's steps until it exits
(after SIGTERM has been delivered the loop exits within six steps from any
position, so `joinWorker` iterates the step function six times).

`ThreadPool::Synchronize` performs no writes to pool state (it only polls);
it is modelled as its own polling machine `syncStep` over a program counter
`SyncPC`, plus a fuel-bounded runner `Synchronize` that reports `none` when
the poll loop has not yet returned (i.e. the call is still blocking).
-/

/-- The five worker states of `ThreadPool::THREAD_SIGNALS`. -/
inductive THREAD_SIGNALS
  | STARTING
  | WORKING
  | IDLE
  | SIGTERM
  | TERMINATING
deriving DecidableEq, Repr

/-- `JobQueue` (JobQueue.hpp): a `std::queue<Job_Base*>`; front of the list
is the front of the queue. -/
structure JobQueue where
  m_jobs : List Nat
deriving DecidableEq, Repr

/-- `JobQueue::Add_Job`: `m_jobs.push(job)` appends at the tail. -/
def JobQueue.Add_Job (q : JobQueue) (job : Nat) : JobQueue :=
  ⟨q.m_jobs ++ [job]⟩

/-- `JobQueue::Get_Work`: returns `nullptr` (here `none`) on an empty queue,
otherwise removes and returns the front element. -/
def JobQueue.Get_Work (q : JobQueue) : Option Nat × JobQueue :=
  match q.m_jobs with
  | [] => (none, q)
  | job :: rest => (some job, ⟨rest⟩)

/-- `JobQueue::Size`. -/
def JobQueue.Size (q : JobQueue) : Nat :=
  q.m_jobs.length

/-- `JobQueue::Empty`. -/
def JobQueue.Empty (q : JobQueue) : Bool :=
  q.m_jobs.isEmpty

/-- `JobQueue::Clear`: pops and `delete`s every job; returns the emptied
queue together with the list of destroyed jobs (in pop order). -/
def JobQueue.Clear (q : JobQueue) : JobQueue × List Nat :=
  (⟨[]⟩, q.m_jobs)

/-- Program counter for the body of `ThreadPool::Idle` (one value per atomic
step of the loop).
  * `top`: about to run the locked `Get_Work` call;
  * `gotJob j`: obtained job `j`, about to run the locked signal check that
    sets `WORKING` unless the signal is already `SIGTERM`;
  * `exec j`: about to run `job->Execute()`;
  * `del j`: about to run `delete job`;
  * `noJob`: obtained `nullptr`, about to run the locked signal check that
    sets `IDLE` unless the signal is already `SIGTERM`;
  * `sleeping`: inside `sleep_for(m_sleep_duration)`;
  * `check`: about to run the end-of-iteration `switch` on the signal;
  * `finalize`: has left the loop, about to write `TERMINATING`;
  * `exited`: thread function returned. -/
inductive WPC
  | top
  | gotJob (j : Nat)
  | exec (j : Nat)
  | del (j : Nat)
  | noJob
  | sleeping
  | check
  | finalize
  | exited
deriving DecidableEq, Repr

/-- One entry of `m_threads`: a spawned thread handle, carrying the worker id
it was spawned with and its current position in `ThreadPool::Idle`. -/
structure Worker where
  id : Nat
  pc : WPC
deriving DecidableEq, Repr

/-- The `ThreadPool` object state, plus the ghost task-lifecycle logs and a
ghost count of all workers ever spawned. -/
structure ThreadPool where
  m_nthreads : Nat
  m_nrunning : Nat
  m_threads : List Worker
  m_signals : List THREAD_SIGNALS
  m_jobs : JobQueue
  executedLog : List Nat
  destroyedLog : List Nat
  spawnedCount : Nat
deriving DecidableEq, Repr

/-- The `ThreadPool` constructor: zero running workers, nothing spawned,
empty queue and signal vector. -/
def mkThreadPool (nthreads : Nat) : ThreadPool :=
  { m_nthreads := nthreads
    m_nrunning := 0
    m_threads := []
    m_signals := []
    m_jobs := ⟨[]⟩
    executedLog := []
    destroyedLog := []
    spawnedCount := 0 }

/-- The worker's read of `m_signals[_my_id]` / `m_signals.at(_my_id)`.  The
out-of-range case is undefined behaviour in the source; the default value is
arbitrary and every theorem that depends on a signal read carries an
in-range hypothesis. -/
def ThreadPool.sigAt (p : ThreadPool) (i : Nat) : THREAD_SIGNALS :=
  p.m_signals.getD i THREAD_SIGNALS.TERMINATING

/-- One atomic step of `ThreadPool::Idle` for worker `w` (see `WPC`). -/
def ThreadPool.Idle_step (p : ThreadPool) (w : Worker) : ThreadPool × Worker :=
  match w.pc with
  | WPC.top =>
      match p.m_jobs.Get_Work with
      | (some j, q) => ({ p with m_jobs := q }, { w with pc := WPC.gotJob j })
      | (none, q) => ({ p with m_jobs := q }, { w with pc := WPC.noJob })
  | WPC.gotJob j =>
      if p.sigAt w.id = THREAD_SIGNALS.SIGTERM then
        (p, { w with pc := WPC.exec j })
      else
        ({ p with m_signals := p.m_signals.set w.id THREAD_SIGNALS.WORKING },
         { w with pc := WPC.exec j })
  | WPC.exec j =>
      ({ p with executedLog := p.executedLog ++ [j] }, { w with pc := WPC.del j })
  | WPC.del j =>
      ({ p with destroyedLog := p.destroyedLog ++ [j] }, { w with pc := WPC.check })
  | WPC.noJob =>
      if p.sigAt w.id = THREAD_SIGNALS.SIGTERM then
        (p, { w with pc := WPC.sleeping })
      else
        ({ p with m_signals := p.m_signals.set w.id THREAD_SIGNALS.IDLE },
         { w with pc := WPC.sleeping })
  | WPC.sleeping =>
      (p, { w with pc := WPC.check })
  | WPC.check =>
      if p.sigAt w.id = THREAD_SIGNALS.SIGTERM then
        (p, { w with pc := WPC.finalize })
      else
        (p, { w with pc := WPC.top })
  | WPC.finalize =>
      ({ p with m_signals := p.m_signals.set w.id THREAD_SIGNALS.TERMINATING },
       { w with pc := WPC.exited })
  | WPC.exited =>
      (p, w)

/-- Iterate `Idle_step` `n` times. -/
def ThreadPool.stepN : Nat → ThreadPool → Worker → ThreadPool × Worker
  | 0, p, w => (p, w)
  | n + 1, p, w =>
      let r := p.Idle_step w
      ThreadPool.stepN n r.1 r.2

/-- `t.join()` on one worker, after SIGTERM has been delivered: from any
position the loop exits within six steps (the longest path is
`top → gotJob → exec → del → check → finalize → exited`), so joining is
running six steps (extra steps at `exited` are no-ops). -/
def ThreadPool.joinWorker (p : ThreadPool) (w : Worker) : ThreadPool × Worker :=
  p.stepN 6 w

/-- The `for (auto& t : m_threads) t.join()` loop: join each handle in
order, keeping the (joined) handles in place. -/
def ThreadPool.joinList : ThreadPool → List Worker → ThreadPool × List Worker
  | p, [] => (p, [])
  | p, w :: ws =>
      let r := p.joinWorker w
      let rs := ThreadPool.joinList r.1 ws
      (rs.1, r.2 :: rs.2)

/-- Join every handle in `m_threads` (the handles stay in the vector; only
`Kill_All` clears them afterwards, the destructor does not). -/
def ThreadPool.joinAll (p : ThreadPool) : ThreadPool :=
  let r := ThreadPool.joinList p p.m_threads
  { r.1 with m_threads := r.2 }

/-- The locked `for_each` that assigns `SIGTERM` to every entry of
`m_signals` (used by both `Kill_All` and the destructor). -/
def ThreadPool.signalAllSigterm (p : ThreadPool) : ThreadPool :=
  { p with m_signals := p.m_signals.map (fun _ => THREAD_SIGNALS.SIGTERM) }

/-- `ThreadPool::Add_Job`: locked append to the job queue. -/
def ThreadPool.Add_Job (p : ThreadPool) (job : Nat) : ThreadPool :=
  { p with m_jobs := p.m_jobs.Add_Job job }

/-- `ThreadPool::Empty_Job_Queue`: locked `m_jobs.Clear()`; the popped jobs
are `delete`d, i.e. appended to the ghost destroyed log. -/
def ThreadPool.Empty_Job_Queue (p : ThreadPool) : ThreadPool :=
  { p with m_jobs := p.m_jobs.Clear.1
           destroyedLog := p.destroyedLog ++ p.m_jobs.Clear.2 }

/-- `ThreadPool::Kill_All`: (after an optional `Synchronize`, which performs
no writes to pool state) set every signal to `SIGTERM`, join every thread,
clear `m_threads`, and reset `m_nrunning` to zero. -/
def ThreadPool.Kill_All (p : ThreadPool) (wait_to_finish : Bool) : ThreadPool :=
  let p1 := p.signalAllSigterm
  let p2 := p1.joinAll
  { p2 with m_threads := [], m_nrunning := 0 }

/-- `ThreadPool::~ThreadPool`: set every signal to `SIGTERM`, then
`Empty_Job_Queue()`, then join every thread.  Note the queue is emptied
BEFORE joining, and neither `m_threads` nor `m_nrunning` is reset. -/
def ThreadPool.destructor (p : ThreadPool) : ThreadPool :=
  (p.signalAllSigterm.Empty_Job_Queue).joinAll

/-- `ThreadPool::Start_N_Threads`: fails if `n < m_nrunning`; grows
`m_nthreads` to `n` if `n > m_nthreads`; then, unless
`m_nrunning == m_nthreads`, pushes one `STARTING` signal and one thread
running `Idle(this, i)` for each `i` in `[m_nrunning, n)`, and sets
`m_nrunning = m_threads.size()`. -/
def ThreadPool.Start_N_Threads (p : ThreadPool) (n : Nat) : Bool × ThreadPool :=
  if n < p.m_nrunning then
    (false, p)
  else
    let p1 := if n > p.m_nthreads then { p with m_nthreads := n } else p
    if p1.m_nrunning ≠ p1.m_nthreads then
      let ids := List.range' p1.m_nrunning (n - p1.m_nrunning)
      let p2 :=
        { p1 with
            m_signals := p1.m_signals ++ ids.map (fun _ => THREAD_SIGNALS.STARTING)
            m_threads := p1.m_threads ++ ids.map (fun i => Worker.mk i WPC.top)
            spawnedCount := p1.spawnedCount + (n - p1.m_nrunning) }
      (true, { p2 with m_nrunning := p2.m_threads.length })
    else
      (true, p1)

/-- `ThreadPool::Start_All_Threads`. -/
def ThreadPool.Start_All_Threads (p : ThreadPool) : Bool × ThreadPool :=
  p.Start_N_Threads p.m_nthreads

/-- `ThreadPool::Thread_States`: locked copy of `m_signals`. -/
def ThreadPool.Thread_States (p : ThreadPool) : List THREAD_SIGNALS :=
  p.m_signals

/-- `ThreadPool::N_Threads_Running`. -/
def ThreadPool.N_Threads_Running (p : ThreadPool) : Nat :=
  p.m_nrunning

/-- `ThreadPool::N_Jobs_Remaining`. -/
def ThreadPool.N_Jobs_Remaining (p : ThreadPool) : Nat :=
  p.m_jobs.Size

/-- Program counter of a `ThreadPool::Synchronize` call:
  * `entry`: about to run the `m_nrunning == 0` early-failure check;
  * `waitEmpty`: inside the `while (!m_jobs.Empty())` poll loop;
  * `checkSignals i`: inside the `for (auto& _signal : m_signals)` loop,
    currently polling signal `i` with `while (_signal == WORKING)`;
  * `done b`: returned `b`. -/
inductive SyncPC
  | entry
  | waitEmpty
  | checkSignals (i : Nat)
  | done (b : Bool)
deriving DecidableEq, Repr

/-- One polling step of `ThreadPool::Synchronize` against the pool state
`p`.  `Synchronize` never writes to pool state, so a step only moves the
program counter. -/
def ThreadPool.syncStep (p : ThreadPool) : SyncPC → SyncPC
  | SyncPC.entry =>
      if p.m_nrunning = 0 then SyncPC.done false else SyncPC.waitEmpty
  | SyncPC.waitEmpty =>
      if p.m_jobs.Empty then SyncPC.checkSignals 0 else SyncPC.waitEmpty
  | SyncPC.checkSignals i =>
      if h : i < p.m_signals.length then
        if p.m_signals.get ⟨i, h⟩ = THREAD_SIGNALS.WORKING then
          SyncPC.checkSignals i
        else
          SyncPC.checkSignals (i + 1)
      else
        SyncPC.done true
  | SyncPC.done b => SyncPC.done b

/-- Run the `Synchronize` polling machine for at most `fuel` steps. -/
def ThreadPool.syncRun (p : ThreadPool) : Nat → SyncPC → SyncPC
  | 0, pc => pc
  | fuel + 1, pc =>
      match pc with
      | SyncPC.done b => SyncPC.done b
      | pc => p.syncRun fuel (p.syncStep pc)

/-- `ThreadPool::Synchronize`, run with no interleaved worker activity for
at most `fuel` polling steps: `(some b, p)` once the call returns `b`,
`(none, p)` while it is still blocked polling.  The pool state is returned
unchanged because `Synchronize` performs no writes. -/
def ThreadPool.Synchronize (p : ThreadPool) (fuel : Nat) : Option Bool × ThreadPool :=
  match p.syncRun fuel SyncPC.entry with
  | SyncPC.done b => (some b, p)
  | _ => (none, p)

/-- The public operations of the pool, for reachability of pool states.
`sync` carries the poll fuel of the modelled `Synchronize` call. -/
inductive Op
  | startAll
  | startN (n : Nat)
  | addJob (j : Nat)
  | killAll (wait : Bool)
  | emptyQueue
  | sync (fuel : Nat)

/-- State transformer of one public operation. -/
def applyOp (p : ThreadPool) : Op → ThreadPool
  | Op.startAll => p.Start_All_Threads.2
  | Op.startN n => (p.Start_N_Threads n).2
  | Op.addJob j => p.Add_Job j
  | Op.killAll w => p.Kill_All w
  | Op.emptyQueue => p.Empty_Job_Queue
  | Op.sync fuel => (p.Synchronize fuel).2

/-- Pool states reachable from construction with `c` supported threads by
public operations. -/
inductive Reachable (c : Nat) : ThreadPool → Prop
  | init : Reachable c (mkThreadPool c)
  | step {p : ThreadPool} (op : Op) : Reachable c p → Reachable c (applyOp p op)

/-- The teardown-observable part of a pool state: everything except the
thread-handle vector and the running count (whose values are unobservable
once the object is destroyed). -/
def teardownObs (p : ThreadPool) :
    List Nat × List THREAD_SIGNALS × Nat × List Nat × List Nat × Nat :=
  (p.m_jobs.m_jobs, p.m_signals, p.m_nthreads, p.executedLog, p.destroyedLog,
   p.spawnedCount)

/- ===================  theorems  =================== -/

/-- Claim C7: the job queue is FIFO — `Add_Job` always succeeds, appends at
the tail and grows `Size` by one; `Get_Work` on a non-empty queue removes
and returns the earliest-added remaining task and shrinks `Size` by one; on
an empty queue it returns `none` and leaves the queue unchanged. -/
theorem jobqueue_fifo_spec (q : JobQueue) (j : Nat) :
    (q.Add_Job j).m_jobs = q.m_jobs ++ [j]
    ∧ (q.Add_Job j).Size = q.Size + 1
    ∧ (q.m_jobs = [] → q.Get_Work = (none, q))
    ∧ (∀ x rest, q.m_jobs = x :: rest →
        q.Get_Work = (some x, ⟨rest⟩) ∧ (q.Get_Work.2).Size + 1 = q.Size) := by
  refine ⟨rfl, ?_, ?_, ?_⟩
  · simp [JobQueue.Add_Job, JobQueue.Size]
  · intro h
    simp [JobQueue.Get_Work, h]
  · intro x rest h
    simp [JobQueue.Get_Work, h, JobQueue.Size]

/-- Witness for C7 at a concrete queue. -/
theorem jobqueue_fifo_spec_witness :
    ((⟨[1, 2]⟩ : JobQueue).Add_Job 3).m_jobs = [1, 2] ++ [3]
    ∧ ((⟨[1, 2]⟩ : JobQueue).Add_Job 3).Size = (⟨[1, 2]⟩ : JobQueue).Size + 1
    ∧ (([1, 2] : List Nat) = [] →
        (⟨[1, 2]⟩ : JobQueue).Get_Work = (none, (⟨[1, 2]⟩ : JobQueue)))
    ∧ (∀ x rest, ([1, 2] : List Nat) = x :: rest →
        (⟨[1, 2]⟩ : JobQueue).Get_Work = (some x, ⟨rest⟩)
        ∧ ((⟨[1, 2]⟩ : JobQueue).Get_Work.2).Size + 1 = (⟨[1, 2]⟩ : JobQueue).Size) :=
  jobqueue_fifo_spec ⟨[1, 2]⟩ 3

/-- Claim C4: with zero running workers, `Synchronize` returns failure after
its very first step (so: immediately, without blocking) and leaves the pool
state unchanged, whatever the queue contents. -/
theorem synchronize_zero_workers_fails_immediately (p : ThreadPool)
    (h : p.m_nrunning = 0) :
    ∀ fuel, 1 ≤ fuel → p.Synchronize fuel = (some false, p) := by
  intro fuel hfuel
  obtain ⟨k, rfl⟩ : ∃ k, fuel = k + 1 := ⟨fuel - 1, by omega⟩
  have hstep : p.syncStep SyncPC.entry = SyncPC.done false := by
    simp [ThreadPool.syncStep, h]
  have hrun : ∀ m, p.syncRun m (SyncPC.done false) = SyncPC.done false := by
    intro m
    cases m <;> simp [ThreadPool.syncRun]
  simp [ThreadPool.Synchronize, ThreadPool.syncRun, hstep, hrun]

/-- Witness for C4 at a concrete pool with a non-empty queue and one unit
of poll fuel. -/
theorem synchronize_zero_workers_fails_immediately_witness :
    ThreadPool.Synchronize
        { mkThreadPool 3 with m_jobs := ⟨[7, 8]⟩ } 1
      = (some false, { mkThreadPool 3 with m_jobs := ⟨[7, 8]⟩ }) :=
  synchronize_zero_workers_fails_immediately
    { mkThreadPool 3 with m_jobs := ⟨[7, 8]⟩ } rfl 1 (by decide)

/-- Claim C5: `Start_N_Threads n` with `n` strictly below the running count
returns `false` and leaves the entire pool state unchanged. -/
theorem start_n_threads_shrink_fails_no_change (p : ThreadPool) (n : Nat)
    (h : n < p.m_nrunning) :
    p.Start_N_Threads n = (false, p) := by
  simp [ThreadPool.Start_N_Threads, h]

/-- Witness for C5 at a concrete pool with two running workers. -/
theorem start_n_threads_shrink_fails_no_change_witness :
    ThreadPool.Start_N_Threads
      { m_nthreads := 2, m_nrunning := 2,
        m_threads := [{ id := 0, pc := WPC.top }, { id := 1, pc := WPC.top }],
        m_signals := [THREAD_SIGNALS.STARTING, THREAD_SIGNALS.STARTING],
        m_jobs := ⟨[4]⟩, executedLog := [], destroyedLog := [], spawnedCount := 2 } 1
      = (false,
        { m_nthreads := 2, m_nrunning := 2,
          m_threads := [{ id := 0, pc := WPC.top }, { id := 1, pc := WPC.top }],
          m_signals := [THREAD_SIGNALS.STARTING, THREAD_SIGNALS.STARTING],
          m_jobs := ⟨[4]⟩, executedLog := [], destroyedLog := [], spawnedCount := 2 }) :=
  start_n_threads_shrink_fails_no_change _ 1 (by decide)

/-- Claim C6: `Start_N_Threads n` with `n` at least the running count
returns `true` and afterwards the running count is exactly `n`, the desired
count is the max of its old value and `n`, the previously running workers
(and their loop positions) and the previously existing signal records are
untouched (new workers are appended with fresh `STARTING` records), and the
queue and execution log are unchanged. -/
theorem start_n_threads_grow_success (p : ThreadPool) (n : Nat)
    (hn : p.m_nrunning ≤ n) (hwf : p.m_threads.length = p.m_nrunning) :
    (p.Start_N_Threads n).1 = true
    ∧ (p.Start_N_Threads n).2.m_nrunning = n
    ∧ (p.Start_N_Threads n).2.m_nthreads = max p.m_nthreads n
    ∧ (p.Start_N_Threads n).2.m_threads
        = p.m_threads
          ++ (List.range' p.m_nrunning (n - p.m_nrunning)).map
              (fun i => Worker.mk i WPC.top)
    ∧ (p.Start_N_Threads n).2.m_signals
        = p.m_signals ++ List.replicate (n - p.m_nrunning) THREAD_SIGNALS.STARTING
    ∧ (p.Start_N_Threads n).2.m_jobs = p.m_jobs
    ∧ (p.Start_N_Threads n).2.executedLog = p.executedLog := by
  have h1 : ¬ n < p.m_nrunning := Nat.not_lt.mpr hn
  by_cases h2 : n > p.m_nthreads
  · by_cases h3 : p.m_nrunning = n
    · subst h3
      simp [ThreadPool.Start_N_Threads, h1, h2, hwf]
      repeat' apply And.intro
      all_goals omega
    · have h4 : p.m_nrunning ≠ n := h3
      simp [ThreadPool.Start_N_Threads, h1, h2, h4, hwf, List.map_const']
      repeat' apply And.intro
      all_goals omega
  · by_cases h3 : p.m_nrunning = p.m_nthreads
    · have h4 : n = p.m_nrunning := by omega
      subst h4
      simp [ThreadPool.Start_N_Threads, h1, h2, h3]
      repeat' apply And.intro
      all_goals omega
    · simp [ThreadPool.Start_N_Threads, h1, h2, h3, hwf, List.map_const']
      repeat' apply And.intro
      all_goals omega

/-- Witness for C6: growing a fresh 1-capacity pool to 2 workers. -/
theorem start_n_threads_grow_success_witness :
    ((mkThreadPool 1).Start_N_Threads 2).1 = true
    ∧ ((mkThreadPool 1).Start_N_Threads 2).2.m_nrunning = 2
    ∧ ((mkThreadPool 1).Start_N_Threads 2).2.m_nthreads
        = max (mkThreadPool 1).m_nthreads 2
    ∧ ((mkThreadPool 1).Start_N_Threads 2).2.m_threads
        = (mkThreadPool 1).m_threads
          ++ (List.range' (mkThreadPool 1).m_nrunning
                (2 - (mkThreadPool 1).m_nrunning)).map
              (fun i => Worker.mk i WPC.top)
    ∧ ((mkThreadPool 1).Start_N_Threads 2).2.m_signals
        = (mkThreadPool 1).m_signals
          ++ List.replicate (2 - (mkThreadPool 1).m_nrunning) THREAD_SIGNALS.STARTING
    ∧ ((mkThreadPool 1).Start_N_Threads 2).2.m_jobs = (mkThreadPool 1).m_jobs
    ∧ ((mkThreadPool 1).Start_N_Threads 2).2.executedLog
        = (mkThreadPool 1).executedLog :=
  start_n_threads_grow_success (mkThreadPool 1) 2 (by decide) rfl

/-- Claim C2: a worker-loop iteration that obtains a task from the queue
always executes that task and then destroys it — also when the worker's
signal is already `SIGTERM` — and writes `WORKING` into its signal slot
exactly when the signal is not `SIGTERM`.  The four steps are: dequeue,
signal check, `Execute`, `delete`, leaving the worker at the
end-of-iteration check. -/
theorem worker_iteration_never_abandons_claimed_task (p : ThreadPool)
    (w : Worker) (j : Nat) (rest : List Nat)
    (hpc : w.pc = WPC.top) (hjobs : p.m_jobs.m_jobs = j :: rest) :
    (p.stepN 4 w).1.executedLog = p.executedLog ++ [j]
    ∧ (p.stepN 4 w).1.destroyedLog = p.destroyedLog ++ [j]
    ∧ (p.stepN 4 w).1.m_jobs.m_jobs = rest
    ∧ (p.stepN 4 w).2.pc = WPC.check
    ∧ (p.stepN 4 w).1.m_signals =
        (if p.sigAt w.id = THREAD_SIGNALS.SIGTERM then p.m_signals
         else p.m_signals.set w.id THREAD_SIGNALS.WORKING) := by
  by_cases hs : p.sigAt w.id = THREAD_SIGNALS.SIGTERM
  · simp [ThreadPool.stepN, ThreadPool.Idle_step, JobQueue.Get_Work, hpc, hjobs,
      ThreadPool.sigAt] at hs ⊢
    simp [hs]
  · simp [ThreadPool.stepN, ThreadPool.Idle_step, JobQueue.Get_Work, hpc, hjobs,
      ThreadPool.sigAt] at hs ⊢
    simp [hs]

/-- Witness for C2 at a concrete pool whose single worker already carries
`SIGTERM`. -/
theorem worker_iteration_never_abandons_claimed_task_witness :
    (ThreadPool.stepN 4
        { m_nthreads := 1, m_nrunning := 1,
          m_threads := [Worker.mk 0 WPC.top],
          m_signals := [THREAD_SIGNALS.SIGTERM],
          m_jobs := ⟨[7]⟩, executedLog := [], destroyedLog := [],
          spawnedCount := 1 }
        (Worker.mk 0 WPC.top)).1.executedLog = [] ++ [7]
    ∧ (ThreadPool.stepN 4
        { m_nthreads := 1, m_nrunning := 1,
          m_threads := [Worker.mk 0 WPC.top],
          m_signals := [THREAD_SIGNALS.SIGTERM],
          m_jobs := ⟨[7]⟩, executedLog := [], destroyedLog := [],
          spawnedCount := 1 }
        (Worker.mk 0 WPC.top)).1.destroyedLog = [] ++ [7]
    ∧ (ThreadPool.stepN 4
        { m_nthreads := 1, m_nrunning := 1,
          m_threads := [Worker.mk 0 WPC.top],
          m_signals := [THREAD_SIGNALS.SIGTERM],
          m_jobs := ⟨[7]⟩, executedLog := [], destroyedLog := [],
          spawnedCount := 1 }
        (Worker.mk 0 WPC.top)).1.m_jobs.m_jobs = []
    ∧ (ThreadPool.stepN 4
        { m_nthreads := 1, m_nrunning := 1,
          m_threads := [Worker.mk 0 WPC.top],
          m_signals := [THREAD_SIGNALS.SIGTERM],
          m_jobs := ⟨[7]⟩, executedLog := [], destroyedLog := [],
          spawnedCount := 1 }
        (Worker.mk 0 WPC.top)).2.pc = WPC.check
    ∧ (ThreadPool.stepN 4
        { m_nthreads := 1, m_nrunning := 1,
          m_threads := [Worker.mk 0 WPC.top],
          m_signals := [THREAD_SIGNALS.SIGTERM],
          m_jobs := ⟨[7]⟩, executedLog := [], destroyedLog := [],
          spawnedCount := 1 }
        (Worker.mk 0 WPC.top)).1.m_signals =
        (if ThreadPool.sigAt
              { m_nthreads := 1, m_nrunning := 1,
                m_threads := [Worker.mk 0 WPC.top],
                m_signals := [THREAD_SIGNALS.SIGTERM],
                m_jobs := ⟨[7]⟩, executedLog := [], destroyedLog := [],
                spawnedCount := 1 } 0
            = THREAD_SIGNALS.SIGTERM then [THREAD_SIGNALS.SIGTERM]
         else List.set [THREAD_SIGNALS.SIGTERM] 0 THREAD_SIGNALS.WORKING) :=
  worker_iteration_never_abandons_claimed_task _ _ 7 [] rfl rfl

/-- Frame facts of a single worker step: a worker never touches the counts,
the handle vector or the spawn count; it removes queue elements only from
the front (the queue afterwards is a suffix of the queue before); the task
logs only grow; the signal vector keeps its length. -/
theorem Idle_step_frame (p : ThreadPool) (w : Worker) :
    (p.Idle_step w).1.m_nthreads = p.m_nthreads
    ∧ (p.Idle_step w).1.m_nrunning = p.m_nrunning
    ∧ (p.Idle_step w).1.m_threads = p.m_threads
    ∧ (p.Idle_step w).1.spawnedCount = p.spawnedCount
    ∧ (p.Idle_step w).1.m_jobs.m_jobs <:+ p.m_jobs.m_jobs
    ∧ (∃ t, (p.Idle_step w).1.executedLog = p.executedLog ++ t)
    ∧ (∃ t, (p.Idle_step w).1.destroyedLog = p.destroyedLog ++ t)
    ∧ (p.Idle_step w).1.m_signals.length = p.m_signals.length := by
  cases hpc : w.pc
  case top =>
    cases hjobs : p.m_jobs.m_jobs with
    | nil =>
        simp [ThreadPool.Idle_step, JobQueue.Get_Work, hpc, hjobs]
    | cons j rest =>
        simp [ThreadPool.Idle_step, JobQueue.Get_Work, hpc, hjobs]
  case gotJob j =>
    by_cases hs : p.sigAt w.id = THREAD_SIGNALS.SIGTERM <;>
      simp [ThreadPool.Idle_step, hpc, hs]
  case exec j =>
    simp [ThreadPool.Idle_step, hpc]
  case del j =>
    simp [ThreadPool.Idle_step, hpc]
  case noJob =>
    by_cases hs : p.sigAt w.id = THREAD_SIGNALS.SIGTERM <;>
      simp [ThreadPool.Idle_step, hpc, hs]
  case sleeping =>
    simp [ThreadPool.Idle_step, hpc]
  case check =>
    by_cases hs : p.sigAt w.id = THREAD_SIGNALS.SIGTERM <;>
      simp [ThreadPool.Idle_step, hpc, hs]
  case finalize =>
    simp [ThreadPool.Idle_step, hpc]
  case exited =>
    simp [ThreadPool.Idle_step, hpc]

/-- `Idle_step_frame` lifted to `stepN`. -/
theorem stepN_frame (n : Nat) (p : ThreadPool) (w : Worker) :
    (p.stepN n w).1.m_nthreads = p.m_nthreads
    ∧ (p.stepN n w).1.m_nrunning = p.m_nrunning
    ∧ (p.stepN n w).1.m_threads = p.m_threads
    ∧ (p.stepN n w).1.spawnedCount = p.spawnedCount
    ∧ (p.stepN n w).1.m_jobs.m_jobs <:+ p.m_jobs.m_jobs
    ∧ (∃ t, (p.stepN n w).1.executedLog = p.executedLog ++ t)
    ∧ (∃ t, (p.stepN n w).1.destroyedLog = p.destroyedLog ++ t)
    ∧ (p.stepN n w).1.m_signals.length = p.m_signals.length := by
  induction n generalizing p w with
  | zero =>
      simp [ThreadPool.stepN]
  | succ m ih =>
      obtain ⟨h1, h2, h3, h4, h5, ⟨t1, h6⟩, ⟨t2, h7⟩, h8⟩ :=
        Idle_step_frame p w
      obtain ⟨g1, g2, g3, g4, g5, ⟨u1, g6⟩, ⟨u2, g7⟩, g8⟩ :=
        ih (p.Idle_step w).1 (p.Idle_step w).2
      refine ⟨?_, ?_, ?_, ?_, ?_, ⟨t1 ++ u1, ?_⟩, ⟨t2 ++ u2, ?_⟩, ?_⟩ <;>
        simp [ThreadPool.stepN]
      · rw [g1, h1]
      · rw [g2, h2]
      · rw [g3, h3]
      · rw [g4, h4]
      · exact g5.trans h5
      · rw [g6, h6, List.append_assoc]
      · rw [g7, h7, List.append_assoc]
      · rw [g8, h8]

/-- `Idle_step_frame` lifted to joining a list of workers. -/
theorem joinList_frame (ws : List Worker) (p : ThreadPool) :
    (ThreadPool.joinList p ws).1.m_nthreads = p.m_nthreads
    ∧ (ThreadPool.joinList p ws).1.m_nrunning = p.m_nrunning
    ∧ (ThreadPool.joinList p ws).1.m_threads = p.m_threads
    ∧ (ThreadPool.joinList p ws).1.spawnedCount = p.spawnedCount
    ∧ (ThreadPool.joinList p ws).1.m_jobs.m_jobs <:+ p.m_jobs.m_jobs
    ∧ (∃ t, (ThreadPool.joinList p ws).1.executedLog = p.executedLog ++ t)
    ∧ (∃ t, (ThreadPool.joinList p ws).1.destroyedLog = p.destroyedLog ++ t)
    ∧ (ThreadPool.joinList p ws).1.m_signals.length = p.m_signals.length
    ∧ (ThreadPool.joinList p ws).2.length = ws.length := by
  induction ws generalizing p with
  | nil =>
      simp [ThreadPool.joinList]
  | cons w ws ih =>
      obtain ⟨h1, h2, h3, h4, h5, ⟨t1, h6⟩, ⟨t2, h7⟩, h8⟩ :=
        stepN_frame 6 p w
      obtain ⟨g1, g2, g3, g4, g5, ⟨u1, g6⟩, ⟨u2, g7⟩, g8, g9⟩ :=
        ih (p.stepN 6 w).1
      refine ⟨?_, ?_, ?_, ?_, ?_, ⟨t1 ++ u1, ?_⟩, ⟨t2 ++ u2, ?_⟩, ?_, ?_⟩ <;>
        simp [ThreadPool.joinList, ThreadPool.joinWorker]
      · rw [g1, h1]
      · rw [g2, h2]
      · rw [g3, h3]
      · rw [g4, h4]
      · exact g5.trans h5
      · rw [g6, h6, List.append_assoc]
      · rw [g7, h7, List.append_assoc]
      · rw [g8, h8]
      · exact g9

/-- Joining one worker whose signal slot holds `SIGTERM` and whose thread
function has not yet returned: the worker runs to `exited`, writing
`TERMINATING` into its own signal slot and nothing else into the signal
vector (under `SIGTERM` the loop body skips its `WORKING`/`IDLE` writes);
the counts and handle vector are untouched, the queue loses at most a front
segment, and the task logs only grow. -/
theorem joinWorker_sigterm_spec (p : ThreadPool) (w : Worker)
    (hsig : p.sigAt w.id = THREAD_SIGNALS.SIGTERM)
    (hpc : w.pc ≠ WPC.exited) :
    (p.joinWorker w).2 = Worker.mk w.id WPC.exited
    ∧ (p.joinWorker w).1.m_signals = p.m_signals.set w.id THREAD_SIGNALS.TERMINATING
    ∧ (p.joinWorker w).1.m_nthreads = p.m_nthreads
    ∧ (p.joinWorker w).1.m_nrunning = p.m_nrunning
    ∧ (p.joinWorker w).1.m_threads = p.m_threads
    ∧ (p.joinWorker w).1.spawnedCount = p.spawnedCount
    ∧ (p.joinWorker w).1.m_jobs.m_jobs <:+ p.m_jobs.m_jobs
    ∧ (∃ t, (p.joinWorker w).1.executedLog = p.executedLog ++ t)
    ∧ (∃ t, (p.joinWorker w).1.destroyedLog = p.destroyedLog ++ t) := by
  cases hw : w.pc
  case top =>
    cases hjobs : p.m_jobs.m_jobs with
    | nil =>
        simp [ThreadPool.joinWorker, ThreadPool.stepN, ThreadPool.Idle_step,
          JobQueue.Get_Work, ThreadPool.sigAt, hw, hjobs,
          ThreadPool.sigAt] at hsig ⊢
        simp [hsig, hjobs]
    | cons j rest =>
        simp [ThreadPool.joinWorker, ThreadPool.stepN, ThreadPool.Idle_step,
          JobQueue.Get_Work, ThreadPool.sigAt, hw, hjobs] at hsig ⊢
        simp [hsig]
  case gotJob j =>
    simp [ThreadPool.joinWorker, ThreadPool.stepN, ThreadPool.Idle_step,
      JobQueue.Get_Work, ThreadPool.sigAt, hw] at hsig ⊢
    simp [hsig]
  case exec j =>
    simp [ThreadPool.joinWorker, ThreadPool.stepN, ThreadPool.Idle_step,
      JobQueue.Get_Work, ThreadPool.sigAt, hw] at hsig ⊢
    simp [hsig]
  case del j =>
    simp [ThreadPool.joinWorker, ThreadPool.stepN, ThreadPool.Idle_step,
      JobQueue.Get_Work, ThreadPool.sigAt, hw] at hsig ⊢
    simp [hsig]
  case noJob =>
    simp [ThreadPool.joinWorker, ThreadPool.stepN, ThreadPool.Idle_step,
      JobQueue.Get_Work, ThreadPool.sigAt, hw] at hsig ⊢
    simp [hsig]
  case sleeping =>
    simp [ThreadPool.joinWorker, ThreadPool.stepN, ThreadPool.Idle_step,
      JobQueue.Get_Work, ThreadPool.sigAt, hw] at hsig ⊢
    simp [hsig]
  case check =>
    simp [ThreadPool.joinWorker, ThreadPool.stepN, ThreadPool.Idle_step,
      JobQueue.Get_Work, ThreadPool.sigAt, hw] at hsig ⊢
    simp [hsig]
  case finalize =>
    simp [ThreadPool.joinWorker, ThreadPool.stepN, ThreadPool.Idle_step,
      JobQueue.Get_Work, ThreadPool.sigAt, hw] at hsig ⊢
  case exited =>
    exact absurd hw hpc

/-- `List.set` at one index leaves `getD` at any other index unchanged. -/
theorem getD_set_ne (l : List THREAD_SIGNALS) (i j : Nat)
    (v d : THREAD_SIGNALS) (h : i ≠ j) :
    (l.set i v).getD j d = l.getD j d := by
  by_cases hj : j < l.length
  · rw [List.getD_eq_getElem _ _ (by simpa using hj), List.getD_eq_getElem _ _ hj]
    exact List.getElem_set_ne h _
  · rw [List.getD_eq_default _ _ (by simpa using Nat.le_of_not_lt hj),
      List.getD_eq_default _ _ (Nat.le_of_not_lt hj)]

/-- `getD` of an in-range index after the blanket `SIGTERM` assignment. -/
theorem sigAt_map_sigterm (p : ThreadPool) (i : Nat)
    (h : i < p.m_signals.length) :
    p.signalAllSigterm.sigAt i = THREAD_SIGNALS.SIGTERM := by
  simp only [ThreadPool.signalAllSigterm, ThreadPool.sigAt]
  rw [List.getD_eq_getElem _ _ (by simpa using h)]
  simp

/-- Indices outside the fold's id set keep their `getD` value. -/
theorem foldl_set_getD_not_mem (ws : List Worker) (sg : List THREAD_SIGNALS)
    (i : Nat) (d : THREAD_SIGNALS) (h : i ∉ ws.map Worker.id) :
    (ws.foldl (fun s x => s.set x.id THREAD_SIGNALS.TERMINATING) sg).getD i d
      = sg.getD i d := by
  induction ws generalizing sg with
  | nil => rfl
  | cons x ws ih =>
      simp only [List.map_cons, List.mem_cons, not_or] at h
      rw [List.foldl_cons, ih _ h.2,
        getD_set_ne _ _ _ _ _ (fun he => h.1 he.symm)]

/-- Every worker in the fold's list (distinct, in-range ids) ends with its
slot set to `TERMINATING`. -/
theorem foldl_set_getD_mem (ws : List Worker) (sg : List THREAD_SIGNALS)
    (d : THREAD_SIGNALS) (hnodup : (ws.map Worker.id).Nodup)
    (hid : ∀ w ∈ ws, w.id < sg.length) :
    ∀ w ∈ ws,
      (ws.foldl (fun s x => s.set x.id THREAD_SIGNALS.TERMINATING) sg).getD w.id d
        = THREAD_SIGNALS.TERMINATING := by
  induction ws generalizing sg with
  | nil => simp
  | cons x ws ih =>
      intro w hw
      simp only [List.map_cons, List.nodup_cons] at hnodup
      rcases List.mem_cons.mp hw with hwx | hw2
      · subst hwx
        rw [List.foldl_cons, foldl_set_getD_not_mem ws _ _ _ hnodup.1]
        rw [List.getD_eq_getElem _ _ (by simpa using hid w (by simp))]
        exact List.getElem_set_self _
      · rw [List.foldl_cons]
        refine ih _ hnodup.2 ?_ w hw2
        intro y hy
        simpa using hid y (List.mem_cons_of_mem x hy)

/-- Joining one worker that is parked at the end-of-iteration check with
`SIGTERM` in its slot: the only effect is that its slot becomes
`TERMINATING` and the worker exits. -/
theorem joinWorker_parked_spec (p : ThreadPool) (w : Worker)
    (hsig : p.sigAt w.id = THREAD_SIGNALS.SIGTERM) (hpc : w.pc = WPC.check) :
    p.joinWorker w
      = ({ p with m_signals := p.m_signals.set w.id THREAD_SIGNALS.TERMINATING },
         Worker.mk w.id WPC.exited) := by
  simp [ThreadPool.joinWorker, ThreadPool.stepN, ThreadPool.Idle_step,
    ThreadPool.sigAt, hpc] at hsig ⊢
  simp [hsig]

/-- Joining a list of workers, all parked at the end-of-iteration check with
`SIGTERM` in distinct in-range slots: each slot of a joined worker becomes
`TERMINATING`, every worker exits, and nothing else changes. -/
theorem joinList_parked_spec (ws : List Worker) (p : ThreadPool)
    (hpc : ∀ w ∈ ws, w.pc = WPC.check)
    (hsig : ∀ w ∈ ws, p.sigAt w.id = THREAD_SIGNALS.SIGTERM)
    (hnodup : (ws.map Worker.id).Nodup) :
    ThreadPool.joinList p ws
      = ({ p with
            m_signals :=
              ws.foldl (fun sg x => sg.set x.id THREAD_SIGNALS.TERMINATING)
                p.m_signals },
         ws.map (fun x => Worker.mk x.id WPC.exited)) := by
  induction ws generalizing p with
  | nil => simp [ThreadPool.joinList]
  | cons w ws ih =>
      simp only [List.map_cons, List.nodup_cons] at hnodup
      have hjw := joinWorker_parked_spec p w (hsig w (by simp)) (hpc w (by simp))
      have ihh := ih
        { p with m_signals := p.m_signals.set w.id THREAD_SIGNALS.TERMINATING }
        (fun x hx => hpc x (List.mem_cons_of_mem w hx))
        (fun x hx => by
          have hne : w.id ≠ x.id := by
            intro he
            exact hnodup.1 (he ▸ List.mem_map_of_mem Worker.id hx)
          have hx2 := hsig x (List.mem_cons_of_mem w hx)
          simp only [ThreadPool.sigAt] at hx2 ⊢
          rw [getD_set_ne _ _ _ _ _ hne]
          exact hx2)
        hnodup.2
      simp [ThreadPool.joinList, hjw, ihh]

/-- Joining a list of not-yet-returned workers with `SIGTERM` in distinct
slots: afterwards the signal vector is the original with each joined
worker's slot set to `TERMINATING`, and every joined handle is `exited`. -/
theorem joinList_sigterm_spec (ws : List Worker) (p : ThreadPool)
    (hpc : ∀ w ∈ ws, w.pc ≠ WPC.exited)
    (hsig : ∀ w ∈ ws, p.sigAt w.id = THREAD_SIGNALS.SIGTERM)
    (hnodup : (ws.map Worker.id).Nodup) :
    (ThreadPool.joinList p ws).1.m_signals
      = ws.foldl (fun sg x => sg.set x.id THREAD_SIGNALS.TERMINATING) p.m_signals
    ∧ (ThreadPool.joinList p ws).2
      = ws.map (fun x => Worker.mk x.id WPC.exited) := by
  induction ws generalizing p with
  | nil => simp [ThreadPool.joinList]
  | cons w ws ih =>
      simp only [List.map_cons, List.nodup_cons] at hnodup
      obtain ⟨hw2, hwsig, -, -, -, -, -, -, -⟩ :=
        joinWorker_sigterm_spec p w (hsig w (by simp)) (hpc w (by simp))
      obtain ⟨ih1, ih2⟩ := ih (p.joinWorker w).1
        (fun x hx => hpc x (List.mem_cons_of_mem w hx))
        (fun x hx => by
          have hne : w.id ≠ x.id := by
            intro he
            exact hnodup.1 (he ▸ List.mem_map_of_mem Worker.id hx)
          have hx2 := hsig x (List.mem_cons_of_mem w hx)
          simp only [ThreadPool.sigAt] at hx2 ⊢
          rw [hwsig, getD_set_ne _ _ _ _ _ hne]
          exact hx2)
        hnodup.2
      constructor
      · simp only [ThreadPool.joinList, List.foldl_cons]
        rw [ih1, hwsig]
      · simp only [ThreadPool.joinList, List.map_cons]
        rw [hw2, ih2]

/-- Frame facts of `Kill_All`: the queue only loses a front segment (workers
may claim jobs during the join; `Kill_All` itself discards nothing), the
desired count, spawn count and signal-vector length are unchanged, the
handles are cleared, the running count is zeroed, and the task logs only
grow. -/
theorem Kill_All_frame (p : ThreadPool) (wait : Bool) :
    (p.Kill_All wait).m_jobs.m_jobs <:+ p.m_jobs.m_jobs
    ∧ (p.Kill_All wait).m_nthreads = p.m_nthreads
    ∧ (p.Kill_All wait).m_nrunning = 0
    ∧ (p.Kill_All wait).m_threads = []
    ∧ (p.Kill_All wait).m_signals.length = p.m_signals.length
    ∧ (p.Kill_All wait).spawnedCount = p.spawnedCount
    ∧ (∃ t, (p.Kill_All wait).executedLog = p.executedLog ++ t)
    ∧ (∃ t, (p.Kill_All wait).destroyedLog = p.destroyedLog ++ t) := by
  obtain ⟨h1, h2, h3, h4, h5, h6, h7, h8, h9⟩ :=
    joinList_frame p.signalAllSigterm.m_threads p.signalAllSigterm
  refine ⟨?_, ?_, rfl, rfl, ?_, ?_, ?_, ?_⟩ <;>
    simp only [ThreadPool.Kill_All, ThreadPool.joinAll]
  · exact h5
  · exact h1
  · simpa [ThreadPool.signalAllSigterm] using h8
  · exact h4
  · exact h6
  · exact h7

/-- Claim C8 counterexample: a pool with one running worker parked at the
top of its loop and one pending task; during `Kill_All`'s join the worker
claims (and executes) the task, so after `Kill_All` returns the task that
was pending at invocation is no longer in the queue. -/
theorem kill_all_queue_not_untouched :
    (ThreadPool.Kill_All
        { m_nthreads := 1, m_nrunning := 1,
          m_threads := [Worker.mk 0 WPC.top],
          m_signals := [THREAD_SIGNALS.STARTING],
          m_jobs := ⟨[5]⟩, executedLog := [], destroyedLog := [],
          spawnedCount := 1 } false).m_jobs.m_jobs
      ≠ [5] := by
  decide

/-- Claim C8 (amended): `Kill_All` itself never discards, reorders or
appends pending tasks — on return the queue is a suffix of the queue at
invocation (a still-live worker may claim tasks from the front during the
join window); apart from that queue consumption, `Kill_All` writes only the
worker signals (same count), the thread handles (cleared) and the running
count (zeroed), leaves the desired count and spawn count untouched, and the
execution/destruction logs only grow. -/
theorem kill_all_queue_suffix_frame (p : ThreadPool) (wait : Bool) :
    (p.Kill_All wait).m_jobs.m_jobs <:+ p.m_jobs.m_jobs
    ∧ (p.Kill_All wait).m_nthreads = p.m_nthreads
    ∧ (p.Kill_All wait).m_nrunning = 0
    ∧ (p.Kill_All wait).m_threads = []
    ∧ (p.Kill_All wait).m_signals.length = p.m_signals.length
    ∧ (p.Kill_All wait).spawnedCount = p.spawnedCount
    ∧ (∃ t, (p.Kill_All wait).executedLog = p.executedLog ++ t)
    ∧ (∃ t, (p.Kill_All wait).destroyedLog = p.destroyedLog ++ t) :=
  Kill_All_frame p wait


/-- `Start_N_Threads` preserves handle/running agreement and
running ≤ desired, never decreases the desired count, only appends to the
signal vector, and grows the signal vector and the spawn count by the same
amount. -/
theorem start_n_threads_wf (p : ThreadPool) (n : Nat)
    (hwf : p.m_threads.length = p.m_nrunning)
    (hrn : p.m_nrunning ≤ p.m_nthreads) :
    (p.Start_N_Threads n).2.m_threads.length = (p.Start_N_Threads n).2.m_nrunning
    ∧ (p.Start_N_Threads n).2.m_nrunning ≤ (p.Start_N_Threads n).2.m_nthreads
    ∧ p.m_nthreads ≤ (p.Start_N_Threads n).2.m_nthreads
    ∧ p.m_signals.length ≤ (p.Start_N_Threads n).2.m_signals.length
    ∧ (p.Start_N_Threads n).2.m_signals.length + p.spawnedCount
        = p.m_signals.length + (p.Start_N_Threads n).2.spawnedCount := by
  by_cases h1 : n < p.m_nrunning
  · simp [ThreadPool.Start_N_Threads, h1, hwf, hrn]
  · by_cases h2 : n > p.m_nthreads
    · by_cases h3 : p.m_nrunning = n
      · subst h3
        simp [ThreadPool.Start_N_Threads, h1, h2, hwf]
        repeat' apply And.intro
        all_goals omega
      · simp [ThreadPool.Start_N_Threads, h1, h2, h3, hwf]
        repeat' apply And.intro
        all_goals omega
    · by_cases h3 : p.m_nrunning = p.m_nthreads
      · have h1b : ¬ n < p.m_nthreads := by omega
        simp [ThreadPool.Start_N_Threads, h1, h1b, h2, h3, hwf, hrn]
      · simp [ThreadPool.Start_N_Threads, h1, h2, h3, hwf]
        repeat' apply And.intro
        all_goals omega

/-- `Start_N_Threads` only ever appends to the signal vector. -/
theorem start_n_threads_signals_monotone (p : ThreadPool) (n : Nat) :
    p.m_signals.length ≤ (p.Start_N_Threads n).2.m_signals.length := by
  by_cases h1 : n < p.m_nrunning
  · simp [ThreadPool.Start_N_Threads, h1]
  · by_cases h2 : n > p.m_nthreads
    · by_cases h3 : p.m_nrunning = n <;>
        simp [ThreadPool.Start_N_Threads, h1, h2, h3]
    · by_cases h3 : p.m_nrunning = p.m_nthreads
      · by_cases h1b : n < p.m_nthreads <;>
          simp [ThreadPool.Start_N_Threads, h1, h1b, h2, h3]
      · simp [ThreadPool.Start_N_Threads, h1, h2, h3]

/-- No public operation ever shrinks the signal vector. -/
theorem applyOp_signals_monotone (p : ThreadPool) (op : Op) :
    p.m_signals.length ≤ (applyOp p op).m_signals.length := by
  cases op with
  | startAll =>
      simp only [applyOp, ThreadPool.Start_All_Threads]
      exact start_n_threads_signals_monotone p p.m_nthreads
  | startN n =>
      simp only [applyOp]
      exact start_n_threads_signals_monotone p n
  | addJob j => simp [applyOp, ThreadPool.Add_Job]
  | killAll b =>
      obtain ⟨-, -, -, -, h5, -⟩ := Kill_All_frame p b
      simp only [applyOp]
      omega
  | emptyQueue => simp [applyOp, ThreadPool.Empty_Job_Queue]
  | sync fuel =>
      simp only [applyOp, ThreadPool.Synchronize]
      split <;> simp

/-- Every public operation preserves the basic well-formedness facts
(`m_threads.size() == m_nrunning`, running ≤ desired, signal count =
spawned-ever count) and never decreases the desired count. -/
theorem applyOp_invariants (p : ThreadPool) (op : Op)
    (hwf : p.m_threads.length = p.m_nrunning)
    (hrn : p.m_nrunning ≤ p.m_nthreads) :
    (applyOp p op).m_threads.length = (applyOp p op).m_nrunning
    ∧ (applyOp p op).m_nrunning ≤ (applyOp p op).m_nthreads
    ∧ p.m_nthreads ≤ (applyOp p op).m_nthreads
    ∧ (p.m_signals.length = p.spawnedCount →
        (applyOp p op).m_signals.length = (applyOp p op).spawnedCount) := by
  cases op with
  | startAll =>
      obtain ⟨a1, a2, a3, a4, a5⟩ := start_n_threads_wf p p.m_nthreads hwf hrn
      simp only [applyOp, ThreadPool.Start_All_Threads]
      exact ⟨a1, a2, a3, fun h => by omega⟩
  | startN n =>
      obtain ⟨a1, a2, a3, a4, a5⟩ := start_n_threads_wf p n hwf hrn
      simp only [applyOp]
      exact ⟨a1, a2, a3, fun h => by omega⟩
  | addJob j =>
      simp only [applyOp, ThreadPool.Add_Job]
      exact ⟨hwf, hrn, le_refl _, fun h => h⟩
  | killAll b =>
      obtain ⟨-, h2, h3, h4, h5, h6, -⟩ := Kill_All_frame p b
      simp only [applyOp]
      refine ⟨?_, ?_, ?_, ?_⟩
      · rw [h3, h4]; rfl
      · rw [h3]; exact Nat.zero_le _
      · rw [h2]
      · intro h; rw [h5, h6, h]
  | emptyQueue =>
      simp only [applyOp, ThreadPool.Empty_Job_Queue]
      exact ⟨hwf, hrn, le_refl _, fun h => h⟩
  | sync fuel =>
      have hs : (applyOp p (Op.sync fuel)) = p := by
        simp only [applyOp, ThreadPool.Synchronize]
        split <;> rfl
      rw [hs]
      exact ⟨hwf, hrn, le_refl _, fun h => h⟩

/-- The well-formedness facts hold in every reachable pool state. -/
theorem reachable_invariants (c : Nat) (p : ThreadPool) (h : Reachable c p) :
    p.m_threads.length = p.m_nrunning
    ∧ p.m_nrunning ≤ p.m_nthreads
    ∧ p.m_signals.length = p.spawnedCount := by
  induction h with
  | init => simp [mkThreadPool]
  | step op hp ih =>
      obtain ⟨i1, i2, i3⟩ := ih
      obtain ⟨a1, a2, a3, a4⟩ := applyOp_invariants _ op i1 i2
      exact ⟨a1, a2, a4 i3⟩

/-- Claim C9: in every pool state reachable by public operations from
construction, the running-worker count is at most the desired-worker count,
and no public operation applied to that state ever decreases the
desired-worker count. -/
theorem running_le_desired_and_desired_monotone (c : Nat) (p : ThreadPool)
    (h : Reachable c p) :
    p.m_nrunning ≤ p.m_nthreads
    ∧ ∀ op : Op, p.m_nthreads ≤ (applyOp p op).m_nthreads := by
  obtain ⟨i1, i2, -⟩ := reachable_invariants c p h
  exact ⟨i2, fun op => (applyOp_invariants p op i1 i2).2.2.1⟩

/-- Witness for C9 at the freshly constructed 2-thread pool. -/
theorem running_le_desired_and_desired_monotone_witness :
    (mkThreadPool 2).m_nrunning ≤ (mkThreadPool 2).m_nthreads
    ∧ ∀ op : Op,
        (mkThreadPool 2).m_nthreads ≤ (applyOp (mkThreadPool 2) op).m_nthreads :=
  running_le_desired_and_desired_monotone 2 (mkThreadPool 2) Reachable.init

/-- Claim C3 counterexample: from a pool with one running worker at its
loop top and one pending task, destruction and
`Kill_All(false); Empty_Job_Queue()` do NOT produce the same final state:
the destructor empties the queue before joining (the task is discarded
unexecuted and the worker finds the queue empty), while `Kill_All` joins
first (the worker claims and executes the task) and also clears the handle
vector and zeroes the running count, which the destructor never does. -/
theorem destructor_not_equal_killall_then_empty :
    ThreadPool.destructor
        { m_nthreads := 1, m_nrunning := 1,
          m_threads := [Worker.mk 0 WPC.top],
          m_signals := [THREAD_SIGNALS.STARTING],
          m_jobs := ⟨[3]⟩, executedLog := [], destroyedLog := [],
          spawnedCount := 1 }
      ≠ (ThreadPool.Kill_All
          { m_nthreads := 1, m_nrunning := 1,
            m_threads := [Worker.mk 0 WPC.top],
            m_signals := [THREAD_SIGNALS.STARTING],
            m_jobs := ⟨[3]⟩, executedLog := [], destroyedLog := [],
            spawnedCount := 1 } false).Empty_Job_Queue := by
  decide

/-- Claim C3 (amended): when teardown starts with every worker parked at
its end-of-iteration check (distinct, in-range ids), destruction and
`Kill_All(false)` followed by `Empty_Job_Queue` agree on all teardown
observables — queue (empty), signal vector (each joined worker's slot
`TERMINATING`), desired count, execution log, destruction log (every
pending task destroyed unexecuted) and spawn count — and every worker is
joined; the final states are still not literally equal: the destructor
leaves the running count and the (joined) handle vector unreset, while
`Kill_All` clears them. -/
theorem destructor_killall_teardown_observables_agree (p : ThreadPool)
    (hpc : ∀ w ∈ p.m_threads, w.pc = WPC.check)
    (hid : ∀ w ∈ p.m_threads, w.id < p.m_signals.length)
    (hnodup : (p.m_threads.map Worker.id).Nodup) :
    teardownObs p.destructor = teardownObs ((p.Kill_All false).Empty_Job_Queue)
    ∧ p.destructor.m_jobs.m_jobs = []
    ∧ ((p.Kill_All false).Empty_Job_Queue).m_jobs.m_jobs = []
    ∧ p.destructor.destroyedLog = p.destroyedLog ++ p.m_jobs.m_jobs
    ∧ p.destructor.executedLog = p.executedLog
    ∧ (∀ w ∈ p.destructor.m_threads, w.pc = WPC.exited)
    ∧ ((p.Kill_All false).Empty_Job_Queue).m_threads = []
    ∧ p.destructor.m_nrunning = p.m_nrunning
    ∧ ((p.Kill_All false).Empty_Job_Queue).m_nrunning = 0 := by
  have hsig2 : ∀ w ∈ p.m_threads,
      p.signalAllSigterm.sigAt w.id = THREAD_SIGNALS.SIGTERM :=
    fun w hw => sigAt_map_sigterm p w.id (hid w hw)
  have hsig1 : ∀ w ∈ p.m_threads,
      (p.signalAllSigterm.Empty_Job_Queue).sigAt w.id = THREAD_SIGNALS.SIGTERM := by
    intro w hw
    have h := hsig2 w hw
    simpa [ThreadPool.Empty_Job_Queue, ThreadPool.sigAt] using h
  have hj1 := joinList_parked_spec p.m_threads
    (p.signalAllSigterm.Empty_Job_Queue) hpc hsig1 hnodup
  have hj2 := joinList_parked_spec p.m_threads p.signalAllSigterm hpc hsig2 hnodup
  have hd : p.destructor
      = { p.signalAllSigterm.Empty_Job_Queue with
            m_signals :=
              p.m_threads.foldl
                (fun sg x => sg.set x.id THREAD_SIGNALS.TERMINATING)
                (p.signalAllSigterm.Empty_Job_Queue).m_signals
            m_threads := p.m_threads.map (fun x => Worker.mk x.id WPC.exited) } := by
    have ht : (p.signalAllSigterm.Empty_Job_Queue).m_threads = p.m_threads := rfl
    simp [ThreadPool.destructor, ThreadPool.joinAll, ht, hj1]
  have hk : p.Kill_All false
      = { p.signalAllSigterm with
            m_signals :=
              p.m_threads.foldl
                (fun sg x => sg.set x.id THREAD_SIGNALS.TERMINATING)
                p.signalAllSigterm.m_signals
            m_threads := []
            m_nrunning := 0 } := by
    have ht : p.signalAllSigterm.m_threads = p.m_threads := rfl
    simp [ThreadPool.Kill_All, ThreadPool.joinAll, ht, hj2]
  refine ⟨?_, ?_, ?_, ?_, ?_, ?_, ?_, ?_, ?_⟩
  · rw [hd, hk]
    simp [teardownObs, ThreadPool.Empty_Job_Queue, ThreadPool.signalAllSigterm]
  · rw [hd]; rfl
  · rw [hk]; rfl
  · rw [hd]
    simp [ThreadPool.Empty_Job_Queue, ThreadPool.signalAllSigterm, JobQueue.Clear]
  · rw [hd]; rfl
  · rw [hd]
    intro w hw
    simp only [List.mem_map] at hw
    obtain ⟨x, -, rfl⟩ := hw
    rfl
  · rw [hk]; rfl
  · rw [hd]; rfl
  · rw [hk]; rfl

/-- Witness for C3 (amended) at a one-worker pool parked at its
end-of-iteration check with one pending task. -/
theorem destructor_killall_teardown_observables_agree_witness :
    teardownObs
        (ThreadPool.destructor
          { m_nthreads := 1, m_nrunning := 1,
            m_threads := [Worker.mk 0 WPC.check],
            m_signals := [THREAD_SIGNALS.STARTING],
            m_jobs := ⟨[9]⟩, executedLog := [], destroyedLog := [],
            spawnedCount := 1 })
      = teardownObs
        ((ThreadPool.Kill_All
          { m_nthreads := 1, m_nrunning := 1,
            m_threads := [Worker.mk 0 WPC.check],
            m_signals := [THREAD_SIGNALS.STARTING],
            m_jobs := ⟨[9]⟩, executedLog := [], destroyedLog := [],
            spawnedCount := 1 } false).Empty_Job_Queue)
    ∧ (ThreadPool.destructor
          { m_nthreads := 1, m_nrunning := 1,
            m_threads := [Worker.mk 0 WPC.check],
            m_signals := [THREAD_SIGNALS.STARTING],
            m_jobs := ⟨[9]⟩, executedLog := [], destroyedLog := [],
            spawnedCount := 1 }).m_jobs.m_jobs = []
    ∧ ((ThreadPool.Kill_All
          { m_nthreads := 1, m_nrunning := 1,
            m_threads := [Worker.mk 0 WPC.check],
            m_signals := [THREAD_SIGNALS.STARTING],
            m_jobs := ⟨[9]⟩, executedLog := [], destroyedLog := [],
            spawnedCount := 1 } false).Empty_Job_Queue).m_jobs.m_jobs = []
    ∧ (ThreadPool.destructor
          { m_nthreads := 1, m_nrunning := 1,
            m_threads := [Worker.mk 0 WPC.check],
            m_signals := [THREAD_SIGNALS.STARTING],
            m_jobs := ⟨[9]⟩, executedLog := [], destroyedLog := [],
            spawnedCount := 1 }).destroyedLog = [] ++ [9]
    ∧ (ThreadPool.destructor
          { m_nthreads := 1, m_nrunning := 1,
            m_threads := [Worker.mk 0 WPC.check],
            m_signals := [THREAD_SIGNALS.STARTING],
            m_jobs := ⟨[9]⟩, executedLog := [], destroyedLog := [],
            spawnedCount := 1 }).executedLog = []
    ∧ (∀ w ∈ (ThreadPool.destructor
          { m_nthreads := 1, m_nrunning := 1,
            m_threads := [Worker.mk 0 WPC.check],
            m_signals := [THREAD_SIGNALS.STARTING],
            m_jobs := ⟨[9]⟩, executedLog := [], destroyedLog := [],
            spawnedCount := 1 }).m_threads, w.pc = WPC.exited)
    ∧ ((ThreadPool.Kill_All
          { m_nthreads := 1, m_nrunning := 1,
            m_threads := [Worker.mk 0 WPC.check],
            m_signals := [THREAD_SIGNALS.STARTING],
            m_jobs := ⟨[9]⟩, executedLog := [], destroyedLog := [],
            spawnedCount := 1 } false).Empty_Job_Queue).m_threads = []
    ∧ (ThreadPool.destructor
          { m_nthreads := 1, m_nrunning := 1,
            m_threads := [Worker.mk 0 WPC.check],
            m_signals := [THREAD_SIGNALS.STARTING],
            m_jobs := ⟨[9]⟩, executedLog := [], destroyedLog := [],
            spawnedCount := 1 }).m_nrunning = 1
    ∧ ((ThreadPool.Kill_All
          { m_nthreads := 1, m_nrunning := 1,
            m_threads := [Worker.mk 0 WPC.check],
            m_signals := [THREAD_SIGNALS.STARTING],
            m_jobs := ⟨[9]⟩, executedLog := [], destroyedLog := [],
            spawnedCount := 1 } false).Empty_Job_Queue).m_nrunning = 0 :=
  destructor_killall_teardown_observables_agree
    { m_nthreads := 1, m_nrunning := 1,
            m_threads := [Worker.mk 0 WPC.check],
            m_signals := [THREAD_SIGNALS.STARTING],
            m_jobs := ⟨[9]⟩, executedLog := [], destroyedLog := [],
            spawnedCount := 1 }
    (by decide) (by decide) (by decide)

/-- `Kill_All`'s effect on the signal vector, for distinct in-range worker
ids and not-yet-returned workers: blanket `SIGTERM`, then each joined
worker overwrites its own slot with `TERMINATING`. -/
theorem Kill_All_signals_spec (p : ThreadPool) (b : Bool)
    (hpc : ∀ w ∈ p.m_threads, w.pc ≠ WPC.exited)
    (hid : ∀ w ∈ p.m_threads, w.id < p.m_signals.length)
    (hnodup : (p.m_threads.map Worker.id).Nodup) :
    (p.Kill_All b).m_signals
      = p.m_threads.foldl (fun sg x => sg.set x.id THREAD_SIGNALS.TERMINATING)
          (p.m_signals.map (fun _ => THREAD_SIGNALS.SIGTERM)) := by
  have hsig : ∀ w ∈ p.m_threads,
      p.signalAllSigterm.sigAt w.id = THREAD_SIGNALS.SIGTERM :=
    fun w hw => sigAt_map_sigterm p w.id (hid w hw)
  obtain ⟨h1, -⟩ :=
    joinList_sigterm_spec p.m_threads p.signalAllSigterm hpc hsig hnodup
  have ht : p.signalAllSigterm.m_threads = p.m_threads := rfl
  simp only [ThreadPool.Kill_All, ThreadPool.joinAll, ht]
  simpa [ThreadPool.signalAllSigterm] using h1

/-- `Start_N_Threads` on a pool whose workers have just been killed (zero
running, empty handle vector): the new signal records are appended after
all existing ones, and the respawned workers get ids `0, …, n-1`. -/
theorem start_after_kill_spec (k : ThreadPool) (n : Nat)
    (h0 : k.m_nrunning = 0) (ht : k.m_threads = []) :
    (k.Start_N_Threads n).2.m_signals
      = k.m_signals ++ List.replicate n THREAD_SIGNALS.STARTING
    ∧ (k.Start_N_Threads n).2.m_threads
      = (List.range' 0 n).map (fun i => Worker.mk i WPC.top) := by
  have h1 : ¬ n < k.m_nrunning := by omega
  by_cases h2 : n > k.m_nthreads
  · have h4 : (0 : Nat) ≠ n := by omega
    simp [ThreadPool.Start_N_Threads, h1, h0, h2, h4, ht, List.map_const']
  · by_cases h3 : k.m_nthreads = 0
    · have h5 : n = 0 := by omega
      subst h5
      simp [ThreadPool.Start_N_Threads, h1, h0, h2, h3, ht]
    · have h3b : ¬ (0 = k.m_nthreads) := fun he => h3 he.symm
      simp [ThreadPool.Start_N_Threads, h1, h0, h2, h3b, ht, List.map_const']

/-- Claim C10: worker-state records are never removed: in any reachable
state the signal vector's length equals the total number of workers ever
spawned, and no public operation ever shrinks it; after `Kill_All`,
`Thread_States` still reports a `TERMINATING` record at each joined
worker's index; and a subsequent `Start_N_Threads` appends the fresh
`STARTING` records after all existing ones while each respawned worker's
id addresses the pre-existing record at that index. -/
theorem worker_records_persist (c n : Nat) (p q : ThreadPool)
    (hreach : Reachable c p)
    (hpcq : ∀ w ∈ q.m_threads, w.pc ≠ WPC.exited)
    (hidq : ∀ w ∈ q.m_threads, w.id < q.m_signals.length)
    (hnodupq : (q.m_threads.map Worker.id).Nodup)
    (hn : n ≤ q.m_signals.length) :
    p.m_signals.length = p.spawnedCount
    ∧ (∀ (r : ThreadPool) (op : Op),
        r.m_signals.length ≤ (applyOp r op).m_signals.length)
    ∧ (∀ w ∈ q.m_threads,
        ((q.Kill_All false).Thread_States).getD w.id THREAD_SIGNALS.TERMINATING
          = THREAD_SIGNALS.TERMINATING)
    ∧ ((q.Kill_All false).Start_N_Threads n).2.m_signals
        = (q.Kill_All false).m_signals ++ List.replicate n THREAD_SIGNALS.STARTING
    ∧ (∀ w ∈ ((q.Kill_All false).Start_N_Threads n).2.m_threads,
        w.id < (q.Kill_All false).m_signals.length
        ∧ ((q.Kill_All false).Start_N_Threads n).2.m_signals.getD w.id
              THREAD_SIGNALS.STARTING
            = (q.Kill_All false).m_signals.getD w.id THREAD_SIGNALS.STARTING) := by
  obtain ⟨-, -, i3⟩ := reachable_invariants c p hreach
  obtain ⟨-, -, k3, k4, k5, -⟩ := Kill_All_frame q false
  obtain ⟨s1, s2⟩ := start_after_kill_spec (q.Kill_All false) n k3 k4
  refine ⟨i3, fun r op => applyOp_signals_monotone r op, ?_, s1, ?_⟩
  · intro w hw
    have hsg := Kill_All_signals_spec q false hpcq hidq hnodupq
    simp only [ThreadPool.Thread_States]
    rw [hsg]
    refine foldl_set_getD_mem q.m_threads _ _ hnodupq ?_ w hw
    intro y hy
    simpa using hidq y hy
  · intro w hw
    rw [s2] at hw
    simp only [List.mem_map] at hw
    obtain ⟨i, hi, rfl⟩ := hw
    rw [List.mem_range'_1] at hi
    have hlt : i < (q.Kill_All false).m_signals.length := by omega
    exact ⟨hlt, by rw [s1]; exact List.getD_append _ _ _ _ hlt⟩

/-- Witness for C10 at a one-worker pool and a respawn of one worker. -/
theorem worker_records_persist_witness :
    (mkThreadPool 1).m_signals.length = (mkThreadPool 1).spawnedCount
    ∧ (∀ (r : ThreadPool) (op : Op),
        r.m_signals.length ≤ (applyOp r op).m_signals.length)
    ∧ (∀ w ∈ (
          { m_nthreads := 1, m_nrunning := 1,
            m_threads := [Worker.mk 0 WPC.check],
            m_signals := [THREAD_SIGNALS.STARTING],
            m_jobs := ⟨[]⟩, executedLog := [], destroyedLog := [],
            spawnedCount := 1 } : ThreadPool).m_threads,
        ((ThreadPool.Kill_All
          { m_nthreads := 1, m_nrunning := 1,
            m_threads := [Worker.mk 0 WPC.check],
            m_signals := [THREAD_SIGNALS.STARTING],
            m_jobs := ⟨[]⟩, executedLog := [], destroyedLog := [],
            spawnedCount := 1 } false).Thread_States).getD w.id THREAD_SIGNALS.TERMINATING
          = THREAD_SIGNALS.TERMINATING)
    ∧ ((ThreadPool.Kill_All
          { m_nthreads := 1, m_nrunning := 1,
            m_threads := [Worker.mk 0 WPC.check],
            m_signals := [THREAD_SIGNALS.STARTING],
            m_jobs := ⟨[]⟩, executedLog := [], destroyedLog := [],
            spawnedCount := 1 } false).Start_N_Threads 1).2.m_signals
        = (ThreadPool.Kill_All
          { m_nthreads := 1, m_nrunning := 1,
            m_threads := [Worker.mk 0 WPC.check],
            m_signals := [THREAD_SIGNALS.STARTING],
            m_jobs := ⟨[]⟩, executedLog := [], destroyedLog := [],
            spawnedCount := 1 } false).m_signals ++ List.replicate 1 THREAD_SIGNALS.STARTING
    ∧ (∀ w ∈ ((ThreadPool.Kill_All
          { m_nthreads := 1, m_nrunning := 1,
            m_threads := [Worker.mk 0 WPC.check],
            m_signals := [THREAD_SIGNALS.STARTING],
            m_jobs := ⟨[]⟩, executedLog := [], destroyedLog := [],
            spawnedCount := 1 } false).Start_N_Threads 1).2.m_threads,
        w.id < (ThreadPool.Kill_All
          { m_nthreads := 1, m_nrunning := 1,
            m_threads := [Worker.mk 0 WPC.check],
            m_signals := [THREAD_SIGNALS.STARTING],
            m_jobs := ⟨[]⟩, executedLog := [], destroyedLog := [],
            spawnedCount := 1 } false).m_signals.length
        ∧ ((ThreadPool.Kill_All
          { m_nthreads := 1, m_nrunning := 1,
            m_threads := [Worker.mk 0 WPC.check],
            m_signals := [THREAD_SIGNALS.STARTING],
            m_jobs := ⟨[]⟩, executedLog := [], destroyedLog := [],
            spawnedCount := 1 } false).Start_N_Threads 1).2.m_signals.getD w.id
              THREAD_SIGNALS.STARTING
            = (ThreadPool.Kill_All
          { m_nthreads := 1, m_nrunning := 1,
            m_threads := [Worker.mk 0 WPC.check],
            m_signals := [THREAD_SIGNALS.STARTING],
            m_jobs := ⟨[]⟩, executedLog := [], destroyedLog := [],
            spawnedCount := 1 } false).m_signals.getD w.id THREAD_SIGNALS.STARTING) :=
  worker_records_persist 1 1 (mkThreadPool 1)
    { m_nthreads := 1, m_nrunning := 1,
            m_threads := [Worker.mk 0 WPC.check],
            m_signals := [THREAD_SIGNALS.STARTING],
            m_jobs := ⟨[]⟩, executedLog := [], destroyedLog := [],
            spawnedCount := 1 }
    Reachable.init (by decide) (by decide) (by decide) (by decide)

/-- Claim C1 fails on the code: `Synchronize` polls `m_jobs.Empty()` and
then each signal, and neither poll is synchronized with the window in a
worker between dequeuing a task and setting its signal to `WORKING`.
Concrete interleaving: a pool with one running worker (signal still
`STARTING`) and one submitted task; the worker performs its locked
`Get_Work` (queue becomes empty, task 7 claimed, signal not yet updated);
then `Synchronize` runs to completion: it sees a non-zero running count, an
empty queue, and a signal that is not `WORKING`, and returns success — at
which point the claimed task has not been executed (the execution log is
empty), contradicting the claim that on success every submitted task has
executed exactly once. -/
theorem synchronize_race_success_before_execution :
    (ThreadPool.syncRun
        (ThreadPool.Idle_step
          { m_nthreads := 1, m_nrunning := 1,
            m_threads := [Worker.mk 0 WPC.top],
            m_signals := [THREAD_SIGNALS.STARTING],
            m_jobs := ⟨[7]⟩, executedLog := [], destroyedLog := [],
            spawnedCount := 1 }
          (Worker.mk 0 WPC.top)).1
        5 SyncPC.entry
      = SyncPC.done true)
    ∧ (ThreadPool.Idle_step
          { m_nthreads := 1, m_nrunning := 1,
            m_threads := [Worker.mk 0 WPC.top],
            m_signals := [THREAD_SIGNALS.STARTING],
            m_jobs := ⟨[7]⟩, executedLog := [], destroyedLog := [],
            spawnedCount := 1 }
          (Worker.mk 0 WPC.top)).1.executedLog = []
    ∧ (ThreadPool.Idle_step
          { m_nthreads := 1, m_nrunning := 1,
            m_threads := [Worker.mk 0 WPC.top],
            m_signals := [THREAD_SIGNALS.STARTING],
            m_jobs := ⟨[7]⟩, executedLog := [], destroyedLog := [],
            spawnedCount := 1 }
          (Worker.mk 0 WPC.top)).2.pc = WPC.gotJob 7
    ∧ (ThreadPool.Idle_step
          { m_nthreads := 1, m_nrunning := 1,
            m_threads := [Worker.mk 0 WPC.top],
            m_signals := [THREAD_SIGNALS.STARTING],
            m_jobs := ⟨[7]⟩, executedLog := [], destroyedLog := [],
            spawnedCount := 1 }
          (Worker.mk 0 WPC.top)).1.m_jobs.m_jobs = [] := by
  decide
